import Mathlib

/-!
Verification of the chaba review-environment manager (Rust) against its
natural-language specification, via a shallow embedding of the core code
in Lean 4.

Conventions of the embedding:
* Rust `u32`/`u64`/`u16` values are modelled as `Nat`; wrap-around is made
  explicit (`% 2 ^ 64`) exactly where the source arithmetic can overflow
  (the SipHash mixer).  The store version counter increments by 1 per save
  and cannot realistically overflow, so it is a plain `Nat`.
* Fallible Rust functions returning `Result<T, ChabaError>` become
  `Except ChabaError T`.
* External effects (the filesystem holding the YAML state file, the serde
  YAML parser/serializer, TCP port binding, `Path::canonicalize`, the
  serde_json parser, subprocess execution) are passed in as explicit
  function parameters; the in-repo logic around them is translated
  literally from the source.
* Rust `f32` scores are modelled as `ℚ` (the clamp logic does not depend
  on rounding).
-/

deriving instance DecidableEq for Except

namespace Chaba

/-! ## Data model (src/core/review_analysis.rs, src/core/state.rs, src/error.rs) -/

/-- Severity level of a code finding (`Severity` in review_analysis.rs). -/
inductive Severity where
  | critical
  | high
  | medium
  | low
  | info
deriving DecidableEq, Repr

/-- Category of a code finding (`Category` in review_analysis.rs). -/
inductive Category where
  | security
  | performance
  | bestPractice
  | codeQuality
  | architecture
  | testing
  | documentation
  | other
deriving DecidableEq, Repr

/-- Individual finding from an AI agent (`Finding` in review_analysis.rs). -/
structure Finding where
  severity : Severity
  category : Category
  file : Option String
  line : Option Nat
  title : String
  description : String
  suggestion : Option String
deriving DecidableEq, Repr

/-- Analysis result from a single AI agent (`ReviewAnalysis` in
review_analysis.rs).  The score is an `Option ℚ` standing for `Option<f32>`. -/
structure ReviewAnalysis where
  agent : String
  timestamp : String
  score : Option ℚ
  findings : List Finding
  raw_output : Option String
deriving DecidableEq, Repr

/-- Translation of `ReviewAnalysis::new`; the timestamp comes from the
clock, an external input, so it is a parameter. -/
def ReviewAnalysis.new (agent timestamp : String) : ReviewAnalysis :=
  { agent := agent, timestamp := timestamp, score := none,
    findings := [], raw_output := none }

/-- Translation of `ReviewAnalysis::add_finding`. -/
def ReviewAnalysis.add_finding (a : ReviewAnalysis) (f : Finding) : ReviewAnalysis :=
  { a with findings := a.findings ++ [f] }

/-- Translation of `ReviewAnalysis::set_score`: `score.clamp(0.0, 5.0)`. -/
def ReviewAnalysis.set_score (a : ReviewAnalysis) (score : ℚ) : ReviewAnalysis :=
  { a with score := some (if score < 0 then 0 else if 5 < score then 5 else score) }

/-- Translation of `ReviewAnalysis::set_raw_output`. -/
def ReviewAnalysis.set_raw_output (a : ReviewAnalysis) (output : String) : ReviewAnalysis :=
  { a with raw_output := some output }

/-- Translation of `Finding::new`. -/
def Finding.new (severity : Severity) (category : Category)
    (title description : String) : Finding :=
  { severity := severity, category := category, file := none, line := none,
    title := title, description := description, suggestion := none }

/-- Translation of `Finding::with_file`. -/
def Finding.with_file (f : Finding) (file : String) : Finding :=
  { f with file := some file }

/-- Translation of `Finding::with_line`. -/
def Finding.with_line (f : Finding) (line : Nat) : Finding :=
  { f with line := some line }

/-- Translation of `Finding::with_suggestion`. -/
def Finding.with_suggestion (f : Finding) (suggestion : String) : Finding :=
  { f with suggestion := some suggestion }

/-- Environment record (`ReviewState` in state.rs).  `worktree_path` and
`created_at` are opaque to the store logic and modelled as strings. -/
structure ReviewState where
  pr_number : Nat
  branch : String
  worktree_path : String
  created_at : String
  port : Option Nat
  project_type : Option String
  deps_installed : Bool
  env_copied : Bool
  agent_analyses : List ReviewAnalysis
deriving DecidableEq, Repr

/-- Persistent store (`State` in state.rs). -/
structure State where
  version : Nat
  reviews : List ReviewState
deriving DecidableEq, Repr

/-- Translation of `State::default()` (derived `Default`): version 0, no
reviews. -/
def State.default : State :=
  { version := 0, reviews := [] }

/-- Error type (`ChabaError` in error.rs); only the variants the verified
code paths can produce are modelled.  Formatted message payloads that the
claims never inspect are dropped. -/
inductive ChabaError where
  | worktreeExists (path : String)
  | worktreeNotFound (pr : Nat)
  | configError (msg : String)
  | serdeError
  | invalidInput
  | noAvailablePort (range_start range_end : Nat)
  | agentExecutionError (agent stdout stderr : String)
  | stateConflict (expected actual : Nat)
  | otherError (msg : String)
deriving DecidableEq, Repr

/-! ## Concurrent state store (src/core/state.rs)

The backing file is modelled as `Option String`: `none` when
`~/.chaba/state.yaml` does not exist, `some content` otherwise.  The serde
YAML round-trip is external code, passed in as `parse` (deserialization;
`none` models `Err`) and `ser` (serialization). -/

/-- Translation of `State::load`: absent file yields the default store;
an existing file is read and deserialized, a deserialization failure is an
error (corrupt files are not auto-repaired). -/
def State.load (parse : String → Option State) (disk : Option String) :
    Except ChabaError State :=
  match disk with
  | none => Except.ok State.default
  | some content =>
      match parse content with
      | some state => Except.ok state
      | none => Except.error ChabaError.serdeError

/-- Translation of `State::save`: if the file exists and its content
parses to a state whose version differs from the in-memory version, fail
with `StateConflict \x7bexpected: self.version, actual: current.version\x7d`
before touching the file; otherwise increment the version, serialize and
atomically replace the file.  The returned pair is (result carrying the
saved in-memory state, file content after the call). -/
def State.save (parse : String → Option State) (ser : State → String)
    (self : State) (disk : Option String) :
    Except ChabaError State × Option String :=
  let conflict : Option Nat :=
    match disk with
    | some content =>
        match parse content with
        | some current =>
            if current.version ≠ self.version then some current.version else none
        | none => none
    | none => none
  match conflict with
  | some actual =>
      (Except.error (ChabaError.stateConflict self.version actual), disk)
  | none =>
      let saved : State := { self with version := self.version + 1 }
      (Except.ok saved, some (ser saved))

/-- Translation of `State::add_review`: drop any review with the same
`pr_number`, push the new review, save. -/
def State.add_review (parse : String → Option State) (ser : State → String)
    (self : State) (review : ReviewState) (disk : Option String) :
    Except ChabaError State × Option String :=
  let mutated : State :=
    { self with reviews :=
        (self.reviews.filter (fun r => r.pr_number ≠ review.pr_number)) ++ [review] }
  State.save parse ser mutated disk

/-- Translation of `State::remove_review`: drop any review with the given
`pr_number` (no check that one was present), save. -/
def State.remove_review (parse : String → Option State) (ser : State → String)
    (self : State) (pr_number : Nat) (disk : Option String) :
    Except ChabaError State × Option String :=
  let mutated : State :=
    { self with reviews := self.reviews.filter (fun r => r.pr_number ≠ pr_number) }
  State.save parse ser mutated disk

/-- Translation of `State::get_review`: first review with the given
`pr_number`. -/
def State.get_review (self : State) (pr_number : Nat) : Option ReviewState :=
  self.reviews.find? (fun r => r.pr_number = pr_number)

/-! ## Port allocator (src/core/port.rs)

`TcpListener::bind` is an OS call; it enters the model as the predicate
`in_use` (translation of `is_port_in_use`: bind failed). -/

/-- Translation of `PortManager::assign_port`: collect the ports already
assigned in the store, scan `range_start..=range_end` in ascending order,
return the first port neither recorded nor in use, else a
`NoAvailablePort` error naming both bounds.  The `for` loop with an early
`return` is rendered as `List.find?` over the ascending range. -/
def assign_port (in_use : Nat → Bool) (range_start range_end : Nat)
    (state : State) : Except ChabaError Nat :=
  let used_ports : List Nat := state.reviews.filterMap (fun r => r.port)
  match (List.range' range_start (range_end + 1 - range_start)).find?
      (fun port => ¬ used_ports.contains port ∧ ¬ in_use port) with
  | some port => Except.ok port
  | none => Except.error (ChabaError.noAvailablePort range_start range_end)

/-! ## Lifecycle removal (src/core/worktree.rs, `WorktreeManager::remove`)

`self.git.remove_worktree` is delegated to the Git adapter; it enters the
model as the function `git_remove` from the worktree path to a result.
The triple returned is (operation result, state file content after the
call, whether the Git worktree-removal side effect was invoked). -/

/-- Translation of `WorktreeManager::remove`: load the store, look the
record up (`WorktreeNotFound` if absent), remove the worktree through the
Git adapter, then remove the record from the store.  Every early error
return leaves the state file untouched. -/
def WorktreeManager.remove (parse : String → Option State) (ser : State → String)
    (git_remove : String → Except ChabaError Unit)
    (disk : Option String) (pr_number : Nat) :
    Except ChabaError Unit × Option String × Bool :=
  match State.load parse disk with
  | Except.error e => (Except.error e, disk, false)
  | Except.ok state =>
      match state.get_review pr_number with
      | none => (Except.error (ChabaError.worktreeNotFound pr_number), disk, false)
      | some review =>
          match git_remove review.worktree_path with
          | Except.error e => (Except.error e, disk, true)
          | Except.ok _ =>
              match State.remove_review parse ser state pr_number disk with
              | (Except.error e, disk') => (Except.error e, disk', true)
              | (Except.ok _, disk') => (Except.ok (), disk', true)

/-! ## Branch-name hashing (src/core/worktree.rs, `hash_branch_name`)

`DefaultHasher` in Rust's standard library is SipHash-1-3 with both keys
zero; `Hash for str` feeds the UTF-8 bytes of the string followed by a
single 0xff byte into the hasher.  The 64-bit state is modelled as `Nat`
with explicit reduction `% 2 ^ 64` at every operation that can wrap. -/

/-- Rotation of a 64-bit word left by `r` bits. -/
def rotl64 (r x : Nat) : Nat :=
  ((x <<< r) ||| (x >>> (64 - r))) % 2 ^ 64

/-- State of the SipHash mixer: four 64-bit words. -/
structure SipState where
  v0 : Nat
  v1 : Nat
  v2 : Nat
  v3 : Nat
deriving DecidableEq, Repr

/-- One SIPROUND of the SipHash mixer (Rust std `State::compress`). -/
def sipRound (s : SipState) : SipState :=
  let v0 := (s.v0 + s.v1) % 2 ^ 64
  let v1 := rotl64 13 s.v1
  let v1 := v1 ^^^ v0
  let v0 := rotl64 32 v0
  let v2 := (s.v2 + s.v3) % 2 ^ 64
  let v3 := rotl64 16 s.v3
  let v3 := v3 ^^^ v2
  let v0 := (v0 + v3) % 2 ^ 64
  let v3 := rotl64 21 v3
  let v3 := v3 ^^^ v0
  let v2 := (v2 + v1) % 2 ^ 64
  let v1 := rotl64 17 v1
  let v1 := v1 ^^^ v2
  let v2 := rotl64 32 v2
  ⟨v0, v1, v2, v3⟩

/-- Absorption of one 64-bit message block with `c = 1` compression round
(SipHash-1-3). -/
def sipBlock (s : SipState) (m : Nat) : SipState :=
  let s := { s with v3 := s.v3 ^^^ m }
  let s := sipRound s
  { s with v0 := s.v0 ^^^ m }

/-- Little-endian value of a byte list (first byte least significant). -/
def le64 (bytes : List Nat) : Nat :=
  bytes.foldr (fun b acc => b + (acc <<< 8)) 0

/-- Main SipHash-1-3 loop: absorb complete 8-byte blocks, then finish with
the length-and-tail block and `d = 3` finalization rounds. -/
def sipLoop (s : SipState) : List Nat → Nat → Nat
  | b0 :: b1 :: b2 :: b3 :: b4 :: b5 :: b6 :: b7 :: rest, len =>
      sipLoop (sipBlock s (le64 [b0, b1, b2, b3, b4, b5, b6, b7])) rest len
  | tail, len =>
      let b := ((len % 256) <<< 56) ||| le64 tail
      let s := sipBlock s b
      let s := { s with v2 := s.v2 ^^^ 0xff }
      let s := sipRound (sipRound (sipRound s))
      s.v0 ^^^ s.v1 ^^^ s.v2 ^^^ s.v3

/-- SipHash-1-3 of a byte string under key `(k0, k1)`. -/
def sipHash13 (k0 k1 : Nat) (msg : List Nat) : Nat :=
  sipLoop
    ⟨0x736f6d6570736575 ^^^ k0, 0x646f72616e646f6d ^^^ k1,
     0x6c7967656e657261 ^^^ k0, 0x7465646279746573 ^^^ k1⟩
    msg msg.length

/-- UTF-8 encoding of one character as a byte list. -/
def utf8Bytes (c : Char) : List Nat :=
  let n := c.toNat
  if n < 0x80 then [n]
  else if n < 0x800 then
    [0xC0 ||| (n >>> 6), 0x80 ||| (n &&& 0x3F)]
  else if n < 0x10000 then
    [0xE0 ||| (n >>> 12), 0x80 ||| ((n >>> 6) &&& 0x3F), 0x80 ||| (n &&& 0x3F)]
  else
    [0xF0 ||| (n >>> 18), 0x80 ||| ((n >>> 12) &&& 0x3F),
     0x80 ||| ((n >>> 6) &&& 0x3F), 0x80 ||| (n &&& 0x3F)]

/-- UTF-8 bytes of a string. -/
def strBytes (s : String) : List Nat :=
  s.data.flatMap utf8Bytes

/-- Finish value of `DefaultHasher::new()` fed one Rust string: SipHash-1-3
with zero keys over the UTF-8 bytes followed by the 0xff terminator that
`Hash for str` appends. -/
def defaultHasherString (s : String) : Nat :=
  sipHash13 0 0 (strBytes s ++ [0xff])

/-- Translation of `WorktreeManager::hash_branch_name`:
`(hasher.finish() % 100000) as u32 + 90000`.  The source comment asserts
the result range is 90000-99999. -/
def hash_branch_name (branch : String) : Nat :=
  defaultHasherString branch % 100000 + 90000

/-! ## Path security validator (src/core/worktree.rs, `validate_path_secure`)

Paths are modelled the way `std::path::Path::components` presents them: a
root flag plus the list of components, where `.` components and repeated
separators are already gone and `..` components are kept.  `exists` and
`canonicalize` are OS calls and enter the model as the `Fs` record;
`canonicalize` returns `none` when the OS call fails (path absent or
unresolvable). -/

/-- Path component after `Path::components` normalization: either the
parent-directory component `..` or a normal name. -/
inductive PComp where
  | parentDir
  | normal (name : String)
deriving DecidableEq, Repr

/-- Model of a Rust `Path`: whether it is absolute (has a root component)
plus its remaining components. -/
structure RPath where
  absolute : Bool
  comps : List PComp
deriving DecidableEq, Repr

/-- Translation of `Path::parent`: strip the last component; the root path
and the empty path have no parent. -/
def RPath.parent (p : RPath) : Option RPath :=
  match p.comps with
  | [] => none
  | _ :: _ => some { p with comps := p.comps.dropLast }

/-- Translation of `Path::file_name`: the last component when it is a
normal name. -/
def RPath.fileName (p : RPath) : Option String :=
  match p.comps.getLast? with
  | some (PComp.normal name) => some name
  | _ => none

/-- Translation of `Path::starts_with`: component-wise prefix test; an
absolute path never starts with a relative one and vice versa, since the
root is itself a component. -/
def RPath.startsWith (p base : RPath) : Bool :=
  p.absolute == base.absolute && base.comps.isPrefixOf p.comps

/-- Translation of `Path::join`: an absolute argument replaces the whole
path, a relative one is appended. -/
def RPath.join (p q : RPath) : RPath :=
  if q.absolute then q else { p with comps := p.comps ++ q.comps }

/-- Model of the OS filesystem calls the validator makes. -/
structure Fs where
  pathExists : RPath → Bool
  canonicalize : RPath → Option RPath

/-- Translation of `WorktreeManager::validate_path_secure`:
reject any `..` component; canonicalize the base directory; canonicalize
the candidate when it exists, otherwise canonicalize its existing parent
and re-attach the file name (checking the parent against the base), or —
when the parent does not exist either — fall back to a lexical
`starts_with` check of the raw candidate against the raw base; finally
re-check an existing canonical result against the canonical base. -/
def validate_path_secure (fs : Fs) (path base_dir : RPath) :
    Except ChabaError RPath :=
  if path.comps.contains PComp.parentDir then
    Except.error (ChabaError.configError
      "Invalid path: parent directory (..) is not allowed")
  else
    match fs.canonicalize base_dir with
    | none => Except.error (ChabaError.configError "Failed to resolve base directory")
    | some canonical_base =>
        let canonical_path : Except ChabaError RPath :=
          if fs.pathExists path then
            match fs.canonicalize path with
            | none => Except.error (ChabaError.configError "Failed to resolve path")
            | some cp => Except.ok cp
          else
            match path.parent with
            | some parent =>
                if fs.pathExists parent then
                  match fs.canonicalize parent with
                  | none =>
                      Except.error (ChabaError.configError "Failed to resolve parent path")
                  | some canonical_parent =>
                      if ¬ canonical_parent.startsWith canonical_base then
                        Except.error (ChabaError.configError
                          "Invalid path: outside base directory")
                      else
                        match path.fileName with
                        | some filename =>
                            Except.ok (canonical_parent.join
                              ⟨false, [PComp.normal filename]⟩)
                        | none =>
                            Except.error (ChabaError.configError
                              "Invalid path: no filename")
                else
                  if ¬ path.startsWith base_dir then
                    Except.error (ChabaError.configError
                      "Invalid path: outside base directory")
                  else
                    Except.ok path
            | none =>
                Except.error (ChabaError.configError "Invalid path: no parent directory")
        match canonical_path with
        | Except.error e => Except.error e
        | Except.ok cp =>
            if fs.pathExists cp ∧ ¬ cp.startsWith canonical_base then
              Except.error (ChabaError.configError
                "Invalid path: outside base directory")
            else
              Except.ok cp

/-! ## Agent output parsing (src/core/agent.rs)

The serde_json parser is external; it enters the model as
`jp : String → Option Json` over an explicit JSON value type.  Rust's
`str::to_lowercase` is modelled by its action on ASCII letters
(`asciiLower`), which agrees with it on every string relevant to the fixed
vocabularies (the Japanese synonyms have no case). -/

/-- JSON value as serde_json presents it; numbers are modelled as `ℚ`. -/
inductive Json where
  | null
  | bool (b : Bool)
  | num (q : ℚ)
  | str (s : String)
  | arr (elems : List Json)
  | obj (fields : List (String × Json))

/-- Translation of `Value::get(key)`: field lookup, `none` on
non-objects. -/
def Json.get (v : Json) (key : String) : Option Json :=
  match v with
  | Json.obj fields => (fields.find? (fun kv => kv.1 = key)).map (fun kv => kv.2)
  | _ => none

/-- Translation of `Value::as_str`. -/
def Json.asStr (v : Json) : Option String :=
  match v with
  | Json.str s => some s
  | _ => none

/-- Translation of `Value::as_array`. -/
def Json.asArr (v : Json) : Option (List Json) :=
  match v with
  | Json.arr elems => some elems
  | _ => none

/-- Translation of `Value::as_f64`: every JSON number converts. -/
def Json.asF64 (v : Json) : Option ℚ :=
  match v with
  | Json.num q => some q
  | _ => none

/-- Translation of `Value::as_u64`: numbers that are nonnegative integers
below `2 ^ 64`. -/
def Json.asU64 (v : Json) : Option Nat :=
  match v with
  | Json.num q => if q.den = 1 ∧ 0 ≤ q.num ∧ q.num < 2 ^ 64 then some q.num.toNat else none
  | _ => none

/-- Lowercase mapping on ASCII letters, identity elsewhere. -/
def asciiLowerChar (c : Char) : Char :=
  if 'A' ≤ c ∧ c ≤ 'Z' then Char.ofNat (c.toNat + 32) else c

/-- Model of `str::to_lowercase` (ASCII action). -/
def asciiLower (s : String) : String :=
  String.mk (s.data.map asciiLowerChar)

/-- Severity vocabulary match of `parse_json_finding` applied to the
already-lowercased string: the `match severity_str.to_lowercase().as_str()`
arms, default `Info`. -/
def sevFromLower (t : String) : Severity :=
  if t = "critical" ∨ t = "重大" then Severity.critical
  else if t = "high" ∨ t = "高" then Severity.high
  else if t = "medium" ∨ t = "中" then Severity.medium
  else if t = "low" ∨ t = "低" then Severity.low
  else Severity.info

/-- Category vocabulary match of `parse_json_finding` applied to the
already-lowercased string, default `Other`. -/
def catFromLower (t : String) : Category :=
  if t = "security" ∨ t = "セキュリティ" then Category.security
  else if t = "performance" ∨ t = "パフォーマンス" then Category.performance
  else if t = "bug" ∨ t = "バグ" ∨ t = "codequality" ∨ t = "code_quality" then
    Category.codeQuality
  else if t = "bestpractice" ∨ t = "best_practice" ∨ t = "ベストプラクティス" then
    Category.bestPractice
  else if t = "architecture" ∨ t = "アーキテクチャ" then Category.architecture
  else if t = "testing" ∨ t = "テスト" then Category.testing
  else if t = "documentation" ∨ t = "ドキュメント" then Category.documentation
  else Category.other

/-- Severity of a raw vocabulary string: lowercase, then match. -/
def severityOfString (s : String) : Severity :=
  sevFromLower (asciiLower s)

/-- Category of a raw vocabulary string: lowercase, then match. -/
def categoryOfString (s : String) : Category :=
  catFromLower (asciiLower s)

/-- Translation of `AgentManager::parse_json_finding`: severity and title
are mandatory strings, category defaults to "other", description to "",
and file/line/suggestion are optional (`line as u32` truncates). -/
def parse_json_finding (value : Json) : Option Finding :=
  match (value.get "severity").bind Json.asStr with
  | none => none
  | some severity_str =>
      let severity := severityOfString severity_str
      let category_str := ((value.get "category").bind Json.asStr).getD "other"
      let category := categoryOfString category_str
      match (value.get "title").bind Json.asStr with
      | none => none
      | some title =>
          let description := ((value.get "description").bind Json.asStr).getD ""
          let finding := Finding.new severity category title description
          let finding :=
            match (value.get "file").bind Json.asStr with
            | some file => finding.with_file file
            | none => finding
          let finding :=
            match (value.get "line").bind Json.asU64 with
            | some line => finding.with_line (line % 2 ^ 32)
            | none => finding
          let finding :=
            match (value.get "suggestion").bind Json.asStr with
            | some suggestion => finding.with_suggestion suggestion
            | none => finding
          some finding

/-- Opening-brace character, kept out of literals. -/
def lbraceChar : Char := Char.ofNat 123

/-- Index of the first occurrence of a character (`str::find(char)`),
counted in characters. -/
def findChar (s : String) (c : Char) : Option Nat :=
  s.data.findIdx? (fun ch => ch = c)

/-- Suffix of a string from a character index (`&output[start..]`). -/
def dropChars (s : String) (n : Nat) : String :=
  String.mk (s.data.drop n)

/-- Translation of `AgentManager::try_parse_json`.  The substring from the
first brace (or else the first bracket) is handed to serde_json; on parse
failure the source scans lines for a JSON-looking prefix but discards every
successful parse, so that branch always returns false.  On success the
findings come from the `findings` key or from a top-level array, the
optional `score` is clamped in, and the stage succeeds only if the
analysis ends up with at least one finding. -/
def try_parse_json (jp : String → Option Json) (output : String)
    (analysis : ReviewAnalysis) : Bool × ReviewAnalysis :=
  let json_str? : Option String :=
    match findChar output lbraceChar with
    | some start => some (dropChars output start)
    | none =>
        match findChar output '[' with
        | some start => some (dropChars output start)
        | none => none
  match json_str? with
  | none => (false, analysis)
  | some json_str =>
      match jp json_str with
      | none => (false, analysis)
      | some parsed =>
          let findings? : Option (List Json) :=
            match (parsed.get "findings").bind Json.asArr with
            | some elems => some elems
            | none => parsed.asArr
          match findings? with
          | none => (false, analysis)
          | some finding_values =>
              let analysis := finding_values.foldl
                (fun a v =>
                  match parse_json_finding v with
                  | some f => a.add_finding f
                  | none => a)
                analysis
              let analysis :=
                match (parsed.get "score").bind Json.asF64 with
                | some score => analysis.set_score score
                | none => analysis
              (¬ analysis.findings.isEmpty, analysis)

/-- Substring test (`str::contains`). -/
def hasSub (s pat : String) : Bool :=
  decide ( List.IsInfix pat.data s.data)

/-- Splitting of a character list at newline characters (every separator
is consumed; `[[]]` for the empty input, like `str::split`). -/
def splitNl : List Char → List (List Char)
  | [] => [[]]
  | c :: cs =>
      if c = '\n' then [] :: splitNl cs
      else
        match splitNl cs with
        | line :: rest => (c :: line) :: rest
        | [] => [[c]]

/-- Translation of `str::lines`: split at newlines, no trailing empty
line, trailing carriage returns stripped. -/
def rustLines (s : String) : List String :=
  let parts := splitNl s.data
  let parts :=
    match parts.getLast? with
    | some [] => parts.dropLast
    | _ => parts
  parts.map (fun l =>
    match l.getLast? with
    | some c => if c = '\r' then String.mk l.dropLast else String.mk l
    | none => String.mk l)

/-- Whitespace predicate of the trim model (space, tab, newline, carriage
return; the claims never exercise other Unicode whitespace). -/
def wsChar (c : Char) : Bool :=
  c = ' ' ∨ c = '\t' ∨ c = '\n' ∨ c = '\r'

/-- Model of `str::trim`: drop leading and trailing whitespace. -/
def rustTrim (s : String) : String :=
  String.mk (((s.data.dropWhile wsChar).reverse.dropWhile wsChar).reverse)

/-- Keyword classification of one lowercased line in
`AgentManager::parse_with_patterns`; `none` for a non-matching line. -/
def classifyLine (line_lower : String) : Option (Severity × Category) :=
  if hasSub line_lower "critical" ∨ hasSub line_lower "重大" ∨
      hasSub line_lower "致命的" then
    some (Severity.critical, Category.security)
  else if hasSub line_lower "security" ∨ hasSub line_lower "セキュリティ" ∨
      hasSub line_lower "vulnerability" ∨ hasSub line_lower "脆弱性" then
    some (Severity.high, Category.security)
  else if hasSub line_lower "error" ∨ hasSub line_lower "エラー" ∨
      hasSub line_lower "bug" ∨ hasSub line_lower "バグ" then
    some (Severity.high, Category.codeQuality)
  else if hasSub line_lower "warning" ∨ hasSub line_lower "警告" then
    some (Severity.medium, Category.bestPractice)
  else if hasSub line_lower "performance" ∨ hasSub line_lower "パフォーマンス" ∨
      hasSub line_lower "slow" ∨ hasSub line_lower "遅い" then
    some (Severity.medium, Category.performance)
  else if hasSub line_lower "suggestion" ∨ hasSub line_lower "提案" ∨
      hasSub line_lower "improvement" ∨ hasSub line_lower "改善" then
    some (Severity.low, Category.bestPractice)
  else
    none

/-- Translation of `AgentManager::parse_with_patterns`: every line that
matches a keyword group becomes a finding titled by the trimmed line, with
the following line (trimmed, or empty) as description. -/
def parse_with_patterns (output : String) (analysis : ReviewAnalysis) :
    ReviewAnalysis :=
  let lines := rustLines output
  (List.range lines.length).foldl
    (fun a i =>
      match classifyLine (asciiLower (lines.getD i "")) with
      | none => a
      | some (severity, category) =>
          a.add_finding (Finding.new severity category
            (rustTrim (lines.getD i "")) (rustTrim (lines.getD (i + 1) ""))))
    analysis

/-- Translation of `AgentManager::parse_output`: store the raw output,
try the structured stage, else the heuristic stage, else synthesize the
single fallback Info/Other finding. -/
def parse_output (jp : String → Option Json) (output : String)
    (analysis : ReviewAnalysis) : ReviewAnalysis :=
  let analysis := analysis.set_raw_output output
  match try_parse_json jp output analysis with
  | (true, a) => a
  | (false, a) =>
      let a := parse_with_patterns output a
      if a.findings.isEmpty then
        a.add_finding (Finding.new Severity.info Category.other
          "Review completed"
          "Agent completed review - see raw output for details")
      else
        a

/-! ## Agent orchestration (src/core/agent.rs, `run_parallel` /
`run_sequential`)

Each per-agent run (subprocess, timeout wrapper, join) is an external
effect; what reaches the aggregation loop is, per agent in task order, the
agent's name and its `Result<ReviewAnalysis>` (a timeout or a join failure
both surface as the error case).  The returned pair is (overall result,
the (agent, error) list the loop accumulates and logs). -/

/-- Translation of the collection loop of `AgentManager::run_parallel`:
successes are pushed to `analyses`, failures to `errors`; the function
returns `Ok(analyses)` unconditionally. -/
def run_parallel (outcomes : List (String × Except ChabaError ReviewAnalysis)) :
    Except ChabaError (List ReviewAnalysis) × List (String × ChabaError) :=
  let collected := outcomes.foldl
    (fun (acc : List ReviewAnalysis × List (String × ChabaError)) ar =>
      match ar.2 with
      | Except.ok analysis => (acc.1 ++ [analysis], acc.2)
      | Except.error e => (acc.1, acc.2 ++ [(ar.1, e)]))
    ([], [])
  (Except.ok collected.1, collected.2)

/-- Translation of the collection loop of `AgentManager::run_sequential`,
identical in structure to the parallel one (the source duplicates it). -/
def run_sequential (outcomes : List (String × Except ChabaError ReviewAnalysis)) :
    Except ChabaError (List ReviewAnalysis) × List (String × ChabaError) :=
  let collected := outcomes.foldl
    (fun (acc : List ReviewAnalysis × List (String × ChabaError)) ar =>
      match ar.2 with
      | Except.ok analysis => (acc.1 ++ [analysis], acc.2)
      | Except.error e => (acc.1, acc.2 ++ [(ar.1, e)]))
    ([], [])
  (Except.ok collected.1, collected.2)

/-! ## Auxiliary notions used by the theorems -/

/-- Condition under which the optimistic check of `State::save` passes:
whatever the file holds does not parse to a version different from the
in-memory one. -/
def SaveNoConflict (parse : String → Option State) (self : State)
    (disk : Option String) : Prop :=
  ∀ content current, disk = some content → parse content = some current →
    current.version = self.version

/-- Successful analyses of an outcome list, in order. -/
def successResults (outcomes : List (String × Except ChabaError ReviewAnalysis)) :
    List ReviewAnalysis :=
  outcomes.filterMap (fun ar =>
    match ar.2 with
    | Except.ok analysis => some analysis
    | Except.error _ => none)

/-- Per-agent failures of an outcome list, in order. -/
def failureLog (outcomes : List (String × Except ChabaError ReviewAnalysis)) :
    List (String × ChabaError) :=
  outcomes.filterMap (fun ar =>
    match ar.2 with
    | Except.ok _ => none
    | Except.error e => some (ar.1, e))

/-! ## Helper lemmas -/

theorem save_ok_of_noConflict (parse : String → Option State) (ser : State → String)
    (self : State) (disk : Option String) (h : SaveNoConflict parse self disk) :
    State.save parse ser self disk =
      (Except.ok { self with version := self.version + 1 },
       some (ser { self with version := self.version + 1 })) := by
  unfold State.save
  cases disk with
  | none => rfl
  | some content =>
      cases hp : parse content with
      | none => simp [hp]
      | some current =>
          have hv : current.version = self.version := h content current rfl hp
          simp [hp, hv]

theorem save_error_is_conflict (parse : String → Option State) (ser : State → String)
    (self : State) (disk : Option String) (e : ChabaError)
    (h : (State.save parse ser self disk).1 = Except.error e) :
    ∃ actual, e = ChabaError.stateConflict self.version actual := by
  unfold State.save at h
  cases disk with
  | none => simp at h
  | some content =>
      cases hp : parse content with
      | none => simp [hp] at h
      | some current =>
          by_cases hv : current.version = self.version
          · simp [hp, hv] at h
          · simp [hp, hv] at h
            exact ⟨current.version, h.symm⟩

theorem save_ok_inversion (parse : String → Option State) (ser : State → String)
    (self : State) (disk : Option String) (saved : State) (disk' : Option String)
    (h : State.save parse ser self disk = (Except.ok saved, disk')) :
    saved = { self with version := self.version + 1 } ∧ disk' = some (ser saved) := by
  unfold State.save at h
  cases disk with
  | none =>
      simp at h
      obtain ⟨h1, h2⟩ := h
      subst h1
      exact ⟨rfl, h2.symm⟩
  | some content =>
      cases hp : parse content with
      | none =>
          simp [hp] at h
          obtain ⟨h1, h2⟩ := h
          subst h1
          exact ⟨rfl, h2.symm⟩
      | some current =>
          by_cases hv : current.version = self.version
          · simp [hp, hv] at h
            obtain ⟨h1, h2⟩ := h
            subst h1
            exact ⟨rfl, h2.symm⟩
          · simp [hp, hv] at h

theorem find?_filtered_push (l : List ReviewState) (review : ReviewState) :
    List.find? (fun r => r.pr_number = review.pr_number)
      ((l.filter (fun r => r.pr_number ≠ review.pr_number)) ++ [review]) =
      some review := by
  induction l with
  | nil => simp [List.find?]
  | cons a l ih =>
      by_cases ha : a.pr_number = review.pr_number
      · simp [List.filter, ha]
      · simp [List.filter, ha, List.find?]

theorem countP_filtered_push (l : List ReviewState) (review : ReviewState) :
    List.countP (fun r => r.pr_number = review.pr_number)
      ((l.filter (fun r => r.pr_number ≠ review.pr_number)) ++ [review]) = 1 := by
  induction l with
  | nil => simp [List.countP_cons]
  | cons a l ih =>
      by_cases ha : a.pr_number = review.pr_number
      · simp [List.filter_cons, ha]
      · simp [List.filter_cons, ha, List.countP_cons]

/-! ## Claim C1: saving over a parseable on-disk state with a different
version fails with Conflict and leaves the file untouched -/

/-- C1.  For a store whose in-memory (loaded) version is `self.version`,
calling `State::save` when the on-disk file holds a parseable state with a
different version `actual` fails with
`StateConflict (expected := self.version, actual)` and returns the on-disk
content unchanged. -/
theorem save_conflict_rejected (parse : String → Option State) (ser : State → String)
    (self : State) (content : String) (current : State)
    (hparse : parse content = some current)
    (hne : current.version ≠ self.version) :
    State.save parse ser self (some content) =
      (Except.error (ChabaError.stateConflict self.version current.version),
       some content) := by
  unfold State.save
  simp [hparse, hne]

/-- Witness for C1 at a concrete store: in-memory version 1, on-disk
version 2. -/
theorem save_conflict_rejected_witness :
    State.save (fun _ => some ⟨2, []⟩) (fun _ => "S") ⟨1, []⟩ (some "d") =
      (Except.error (ChabaError.stateConflict 1 2), some "d") :=
  save_conflict_rejected (fun _ => some ⟨2, []⟩) (fun _ => "S") ⟨1, []⟩ "d" ⟨2, []⟩
    rfl (by decide)

/-! ## Claim C2: a successful add_review makes the record retrievable,
bumps the version by exactly one and keeps the identifier unique -/

/-- C2.  After a successful `State::add_review review`, `get_review` on
the review's identifier returns exactly that review, the version is the
loaded version plus one, and at most one record with that identifier is in
the store (a pre-existing one was replaced). -/
theorem add_review_spec (parse : String → Option State) (ser : State → String)
    (self : State) (review : ReviewState) (disk : Option String)
    (saved : State) (disk' : Option String)
    (h : State.add_review parse ser self review disk = (Except.ok saved, disk')) :
    saved.get_review review.pr_number = some review ∧
    saved.version = self.version + 1 ∧
    saved.reviews.countP (fun r => r.pr_number = review.pr_number) ≤ 1 := by
  unfold State.add_review at h
  obtain ⟨h1, -⟩ := save_ok_inversion _ _ _ _ _ _ h
  subst h1
  refine ⟨find?_filtered_push self.reviews review, rfl,
    le_of_eq (countP_filtered_push self.reviews review)⟩

/-- Witness for C2: adding a record over a store that already holds a
record with the same identifier. -/
theorem add_review_spec_witness :
    (⟨4, [⟨5, "b", "/w", "t", none, none, false, false, []⟩]⟩ : State).get_review 5 =
        some ⟨5, "b", "/w", "t", none, none, false, false, []⟩ ∧
    (4 : Nat) = 3 + 1 ∧
    ([⟨5, "b", "/w", "t", none, none, false, false, []⟩] :
        List ReviewState).countP (fun r => r.pr_number = 5) ≤ 1 :=
  add_review_spec (fun _ => none) (fun _ => "S")
    ⟨3, [⟨5, "old", "/o", "t0", none, none, false, false, []⟩]⟩
    ⟨5, "b", "/w", "t", none, none, false, false, []⟩ (some "x")
    ⟨4, [⟨5, "b", "/w", "t", none, none, false, false, []⟩]⟩ (some "S") rfl

/-! ## Claim C10: the store-level remove helper does not detect absence -/

/-- C10.  `State::remove_review` on an identifier absent from the store
can only fail with a version conflict, never with a not-found error; when
the optimistic check passes it succeeds, leaves the record list unchanged,
increments the version by exactly one and persists the store. -/
theorem remove_review_absent_spec (parse : String → Option State)
    (ser : State → String) (self : State) (pr_number : Nat) (disk : Option String)
    (habs : ∀ r ∈ self.reviews, r.pr_number ≠ pr_number) :
    (∀ e, (State.remove_review parse ser self pr_number disk).1 = Except.error e →
        ∃ actual, e = ChabaError.stateConflict self.version actual) ∧
    (SaveNoConflict parse self disk →
      State.remove_review parse ser self pr_number disk =
        (Except.ok { version := self.version + 1, reviews := self.reviews },
         some (ser { version := self.version + 1, reviews := self.reviews }))) := by
  have hfilter : self.reviews.filter (fun r => r.pr_number ≠ pr_number) =
      self.reviews := by
    rw [List.filter_eq_self]
    intro a ha
    simpa using habs a ha
  constructor
  · intro e he
    simp only [State.remove_review] at he
    exact save_error_is_conflict parse ser
      { self with reviews := self.reviews.filter (fun r => r.pr_number ≠ pr_number) }
      disk e he
  · intro hnc
    unfold State.remove_review
    rw [show ({ self with reviews :=
        self.reviews.filter (fun r => r.pr_number ≠ pr_number) } : State) =
        { version := self.version, reviews := self.reviews } from by rw [hfilter]]
    exact save_ok_of_noConflict parse ser _ disk hnc

/-- Witness for C10: removing identifier 2 from a store holding only
identifier 1, with no state file on disk. -/
theorem remove_review_absent_spec_witness :
    State.remove_review (fun _ => none) (fun _ => "S")
        ⟨0, [⟨1, "b", "/w", "t", none, none, false, false, []⟩]⟩ 2 none =
      (Except.ok ⟨1, [⟨1, "b", "/w", "t", none, none, false, false, []⟩]⟩,
       some "S") :=
  (remove_review_absent_spec (fun _ => none) (fun _ => "S")
      ⟨0, [⟨1, "b", "/w", "t", none, none, false, false, []⟩]⟩ 2 none
      (by decide)).2
    (fun content current hc => by cases hc)

/-! ## Claim C8: lifecycle remove fails cleanly on absence and keeps the
record when the worktree removal fails -/

/-- C8.  With the store successfully loaded as `state`: if the identifier
is absent, `WorktreeManager::remove` fails with `WorktreeNotFound`, the
state file is untouched and the Git worktree removal is never invoked; if
the identifier is present but the Git worktree removal fails, that error
propagates and the state file — hence the record — is untouched. -/
theorem worktree_remove_spec (parse : String → Option State) (ser : State → String)
    (git_remove : String → Except ChabaError Unit)
    (disk : Option String) (pr_number : Nat) (state : State)
    (hload : State.load parse disk = Except.ok state) :
    (state.get_review pr_number = none →
      WorktreeManager.remove parse ser git_remove disk pr_number =
        (Except.error (ChabaError.worktreeNotFound pr_number), disk, false)) ∧
    (∀ review e, state.get_review pr_number = some review →
      git_remove review.worktree_path = Except.error e →
      WorktreeManager.remove parse ser git_remove disk pr_number =
        (Except.error e, disk, true)) := by
  constructor
  · intro habs
    simp only [WorktreeManager.remove, hload, habs]
  · intro review e hfound hgit
    simp only [WorktreeManager.remove, hload, hfound, hgit]

/-- Witness for C8: identifier 42 absent from a one-record store read
from disk. -/
theorem worktree_remove_spec_witness :
    WorktreeManager.remove (fun _ => some ⟨1, []⟩) (fun _ => "S")
        (fun _ => Except.ok ()) (some "d") 42 =
      (Except.error (ChabaError.worktreeNotFound 42), some "d", false) :=
  (worktree_remove_spec (fun _ => some ⟨1, []⟩) (fun _ => "S")
      (fun _ => Except.ok ()) (some "d") 42 ⟨1, []⟩ rfl).1 rfl

/-! ## Claim C5: port assignment scans ascending, skips recorded ports,
returns the first free candidate, and reports exhaustion -/

/-- Scan predicate of `assign_port`: the candidate is neither recorded in
the store nor reported in use by the bind probe. -/
def portFree (in_use : Nat → Bool) (used_ports : List Nat) (port : Nat) : Bool :=
  ¬ used_ports.contains port ∧ ¬ in_use port

theorem find?_range'_spec (p : Nat → Bool) (s n x : Nat)
    (h : (List.range' s n).find? p = some x) :
    p x = true ∧ s ≤ x ∧ x < s + n ∧ ∀ q, s ≤ q → q < x → p q = false := by
  induction n generalizing s with
  | zero => simp [List.range'] at h
  | succ n ih =>
      rw [List.range'] at h
      by_cases hs : p s
      · rw [List.find?_cons_of_pos _ hs] at h
        obtain rfl : s = x := by simpa using h
        exact ⟨hs, le_refl s, by omega, fun q hq1 hq2 => absurd hq1 (by omega)⟩
      · rw [List.find?_cons_of_neg _ hs] at h
        obtain ⟨h1, h2, h3, h4⟩ := ih (s + 1) h
        refine ⟨h1, by omega, by omega, fun q hq1 hq2 => ?_⟩
        rcases Nat.eq_or_lt_of_le hq1 with rfl | hlt
        · simpa using hs
        · exact h4 q hlt hq2

theorem find?_range'_none (p : Nat → Bool) (s n : Nat)
    (h : ∀ q, s ≤ q → q < s + n → p q = false) :
    (List.range' s n).find? p = none := by
  rw [List.find?_eq_none]
  intro x hx
  rw [List.mem_range'_1] at hx
  simp [h x hx.1 hx.2]

/-- C5.  `assign_port` (a) returns only ports that are not in the store's
assigned-port set, lie in the inclusive range, pass the bind probe, and
are preceded by no candidate in the range that would also qualify (the
ascending scan returns the first available port); and (b) when no port in
the range qualifies it fails with `NoAvailablePort` naming both bounds. -/
theorem assign_port_spec (in_use : Nat → Bool) (range_start range_end : Nat)
    (state : State) :
    (∀ port, assign_port in_use range_start range_end state = Except.ok port →
      port ∉ state.reviews.filterMap (fun r => r.port) ∧
      range_start ≤ port ∧ port ≤ range_end ∧
      in_use port = false ∧
      (∀ q, range_start ≤ q → q < port →
        portFree in_use (state.reviews.filterMap (fun r => r.port)) q = false)) ∧
    ((∀ q, range_start ≤ q → q ≤ range_end →
        portFree in_use (state.reviews.filterMap (fun r => r.port)) q = false) →
      assign_port in_use range_start range_end state =
        Except.error (ChabaError.noAvailablePort range_start range_end)) := by
  have hdef : assign_port in_use range_start range_end state =
      match (List.range' range_start (range_end + 1 - range_start)).find?
          (portFree in_use (state.reviews.filterMap (fun r => r.port))) with
      | some port => Except.ok port
      | none => Except.error (ChabaError.noAvailablePort range_start range_end) := rfl
  rw [hdef]
  constructor
  · intro port hok
    cases hf : (List.range' range_start (range_end + 1 - range_start)).find?
        (portFree in_use (state.reviews.filterMap (fun r => r.port))) with
    | none => rw [hf] at hok; simp at hok
    | some x =>
        rw [hf] at hok
        obtain rfl : x = port := by simpa using hok
        obtain ⟨h1, h2, h3, h4⟩ := find?_range'_spec _ _ _ _ hf
        have hnotmem : x ∉ state.reviews.filterMap (fun r => r.port) := by
          intro hmem
          rw [List.mem_filterMap] at hmem
          obtain ⟨r, hr, hrp⟩ := hmem
          simp [portFree] at h1
          exact h1.1 r hr hrp
        have hinuse : in_use x = false := by
          by_contra hc
          rw [Bool.not_eq_false] at hc
          simp [portFree, hc] at h1
        exact ⟨hnotmem, h2, by omega, hinuse, fun q hq1 hq2 => h4 q hq1 hq2⟩
  · intro hall
    rw [find?_range'_none]
    intro q hq1 hq2
    exact hall q hq1 (by omega)

/-! ## Claim C3: branch-name hashing is deterministic, total, and its
actual range exceeds the documented reserved range 90000-99999

The function is a pure total Lean function, which settles determinism and
absence of panics.  The arithmetic `finish() % 100000 + 90000` however
has range 90000-189999, while the source comment above it documents
"Range: 90000-99999": the branch name "main" hashes to the six-digit
identifier 142107. -/

/-- C3 evaluation.  `hash_branch_name` always lands in the actual range
90000-189999 of the code, but on the concrete branch name "main" it
produces 142107, outside the range 90000-99999 that the source comment
(and the spec's "high 5-digit values") documents. -/
theorem hash_branch_name_escapes_documented_range :
    (∀ branch : String,
      90000 ≤ hash_branch_name branch ∧ hash_branch_name branch < 190000) ∧
    hash_branch_name "main" = 142107 ∧
    99999 < hash_branch_name "main" := by
  refine ⟨fun branch => ?_, by decide, by decide⟩
  unfold hash_branch_name
  have := Nat.mod_lt (defaultHasherString branch) (show 0 < 100000 by decide)
  omega

/-! ## Claim C4: behavior of the path validator on the three documented
candidates

Concrete filesystem fixtures: the base directory `/home/u/reviews` exists
and is its own canonical form (no symlinks); in `fsots` only the base
exists, in `fsWithSub` the subdirectory `/home/u/reviews/sub` exists too. -/

/-- Base directory `/home/u/reviews` of the spec's examples. -/
def basePath : RPath :=
  ⟨true, [PComp.normal "home", PComp.normal "u", PComp.normal "reviews"]⟩

/-- Relative candidate `pr-5` of the spec's examples. -/
def relCandidate : RPath :=
  ⟨false, [PComp.normal "pr-5"]⟩

/-- Existing subdirectory `/home/u/reviews/sub`. -/
def subDirPath : RPath :=
  ⟨true, [PComp.normal "home", PComp.normal "u", PComp.normal "reviews",
          PComp.normal "sub"]⟩

/-- Absolute candidate `/home/u/reviews/sub/pr-5` of the spec's examples. -/
def nestedCandidate : RPath :=
  ⟨true, [PComp.normal "home", PComp.normal "u", PComp.normal "reviews",
          PComp.normal "sub", PComp.normal "pr-5"]⟩

/-- Symlink-free filesystem in which only the base directory exists. -/
def fsOnlyBase : Fs :=
  { pathExists := fun p => p == basePath,
    canonicalize := fun p => if p == basePath then some p else none }

/-- Symlink-free filesystem in which the base directory and its
subdirectory `sub` exist. -/
def fsWithSub : Fs :=
  { pathExists := fun p => p == basePath || p == subDirPath,
    canonicalize := fun p =>
      if p == basePath || p == subDirPath then some p else none }

/-- Counterexample to C4 as stated: the relative candidate `pr-5` is NOT
resolved against the base directory and accepted as
`/home/u/reviews/pr-5`; since neither `pr-5` nor its parent exists, the
validator falls back to a literal `starts_with` check of the relative
path against the absolute base, which fails, so the candidate is
rejected. -/
theorem validate_relative_candidate_rejected :
    validate_path_secure fsOnlyBase relCandidate basePath =
      Except.error (ChabaError.configError
        "Invalid path: outside base directory") := by
  decide

/-- C4 as amended.  (a) Any candidate containing a parent-directory
component — in particular `../../etc` — is rejected, whatever the
filesystem and base are; (b) the relative candidate `pr-5` is rejected
(not resolved against the base); (c) the absolute candidate
`/home/u/reviews/sub/pr-5`, nested under the base with an existing,
symlink-free parent, is accepted unchanged. -/
theorem validate_path_secure_spec :
    (∀ (fs : Fs) (base p : RPath), PComp.parentDir ∈ p.comps →
      validate_path_secure fs p base =
        Except.error (ChabaError.configError
          "Invalid path: parent directory (..) is not allowed")) ∧
    validate_path_secure fsOnlyBase relCandidate basePath =
      Except.error (ChabaError.configError
        "Invalid path: outside base directory") ∧
    validate_path_secure fsWithSub nestedCandidate basePath =
      Except.ok nestedCandidate := by
  refine ⟨fun fs base p hp => ?_, by decide, by decide⟩
  have hc : p.comps.contains PComp.parentDir = true := by
    simpa using hp
  unfold validate_path_secure
  rw [if_pos hc]

/-- Witness for C4's universally quantified part at the concrete
candidate `../../etc` against `/home/u/reviews`. -/
theorem validate_path_secure_spec_witness :
    validate_path_secure fsOnlyBase
        ⟨false, [PComp.parentDir, PComp.parentDir, PComp.normal "etc"]⟩
        basePath =
      Except.error (ChabaError.configError
        "Invalid path: parent directory (..) is not allowed") :=
  validate_path_secure_spec.1 fsOnlyBase basePath
    ⟨false, [PComp.parentDir, PComp.parentDir, PComp.normal "etc"]⟩
    (by decide)

/-! ## Claims C6 and C7: the output-parsing pipeline -/

/-- Agent output of the C6 example (braces written as escapes):
a findings array with one high/security finding titled X described Y, and
a score of 4.2. -/
def c6input : String :=
  "\x7b\"findings\":[\x7b\"severity\":\"high\",\"category\":\"security\",\"title\":\"X\",\"description\":\"Y\"\x7d],\"score\":4.2\x7d"

/-- JSON value that serde_json produces for `c6input`. -/
def c6json : Json :=
  Json.obj
    [("findings", Json.arr [Json.obj
        [("severity", Json.str "high"), ("category", Json.str "security"),
         ("title", Json.str "X"), ("description", Json.str "Y")]]),
     ("score", Json.num (21 / 5))]

/-- Severity vocabulary (lowercased) recognized by `parse_json_finding`. -/
def sevVocabulary : List String :=
  ["critical", "重大", "high", "高", "medium", "中", "low", "低"]

/-- Category vocabulary (lowercased) recognized by `parse_json_finding`. -/
def catVocabulary : List String :=
  ["security", "セキュリティ", "performance", "パフォーマンス", "bug", "バグ",
   "codequality", "code_quality", "bestpractice", "best_practice",
   "ベストプラクティス", "architecture", "アーキテクチャ", "testing", "テスト",
   "documentation", "ドキュメント"]

theorem try_parse_json_true_nonempty (jp : String → Option Json) (output : String)
    (a : ReviewAnalysis) :
    (try_parse_json jp output a).1 = true →
    (try_parse_json jp output a).2.findings ≠ [] := by
  simp only [try_parse_json]
  generalize (match findChar output lbraceChar with
    | some start => some (dropChars output start)
    | none =>
        match findChar output '[' with
        | some start => some (dropChars output start)
        | none => none : Option String) = js?
  cases js? with
  | none => intro h; simp at h
  | some js =>
      dsimp only
      cases hjp : jp js with
      | none => intro h; simp at h
      | some parsed =>
          dsimp only
          cases hfv : (match (parsed.get "findings").bind Json.asArr with
            | some elems => some elems
            | none => parsed.asArr : Option (List Json)) with
          | none => intro h; simp at h
          | some finding_values =>
              dsimp only
              intro h hnil
              simp [hnil] at h

theorem foldl_step_findings_raw (l : List Json) (a : ReviewAnalysis) :
    (l.foldl
        (fun a v =>
          match parse_json_finding v with
          | some f => a.add_finding f
          | none => a)
        a).raw_output = a.raw_output := by
  induction l generalizing a with
  | nil => rfl
  | cons v l ih =>
      cases hv : parse_json_finding v with
      | none => simp only [List.foldl_cons, hv]; exact ih a
      | some f => simp only [List.foldl_cons, hv]; exact ih (a.add_finding f)

theorem try_parse_json_raw (jp : String → Option Json) (output : String)
    (a : ReviewAnalysis) :
    (try_parse_json jp output a).2.raw_output = a.raw_output := by
  simp only [try_parse_json]
  generalize (match findChar output lbraceChar with
    | some start => some (dropChars output start)
    | none =>
        match findChar output '[' with
        | some start => some (dropChars output start)
        | none => none : Option String) = js?
  cases js? with
  | none => rfl
  | some js =>
      dsimp only
      cases hjp : jp js with
      | none => rfl
      | some parsed =>
          dsimp only
          cases hfv : (match (parsed.get "findings").bind Json.asArr with
            | some elems => some elems
            | none => parsed.asArr : Option (List Json)) with
          | none => rfl
          | some finding_values =>
              dsimp only
              cases hs : (parsed.get "score").bind Json.asF64 with
              | none => exact foldl_step_findings_raw finding_values a
              | some q => exact foldl_step_findings_raw finding_values a

theorem parse_with_patterns_raw (output : String) (a : ReviewAnalysis) :
    (parse_with_patterns output a).raw_output = a.raw_output := by
  unfold parse_with_patterns
  dsimp only
  generalize (rustLines output) = lines
  generalize List.range lines.length = idxs
  induction idxs generalizing a with
  | nil => rfl
  | cons i idxs ih =>
      cases hc : classifyLine (asciiLower (lines.getD i "")) with
      | none => simp only [List.foldl_cons, hc]; exact ih a
      | some sc => simp only [List.foldl_cons, hc]; exact ih _

/-- C7.  Whenever the structured stage comes back with no findings and the
heuristic stage adds none either, `parse_output` produces exactly one
fallback finding with severity Info and category Other, and the full
original text is retained as the raw output. -/
theorem parse_output_fallback (jp : String → Option Json) (output : String)
    (a0 : ReviewAnalysis)
    (hjson : (try_parse_json jp output (a0.set_raw_output output)).2.findings = [])
    (hpat : (parse_with_patterns output
        (try_parse_json jp output (a0.set_raw_output output)).2).findings = []) :
    (parse_output jp output a0).findings =
      [Finding.new Severity.info Category.other "Review completed"
        "Agent completed review - see raw output for details"] ∧
    (parse_output jp output a0).raw_output = some output := by
  have hraw : (try_parse_json jp output (a0.set_raw_output output)).2.raw_output =
      some output :=
    try_parse_json_raw jp output (a0.set_raw_output output)
  cases htp : try_parse_json jp output (a0.set_raw_output output) with
  | mk b a1 =>
      rw [htp] at hjson hpat hraw
      dsimp only at hjson hpat hraw
      have hb : b = false := by
        cases b with
        | false => rfl
        | true =>
            have hne := try_parse_json_true_nonempty jp output
              (a0.set_raw_output output) (by rw [htp])
            rw [htp] at hne
            exact absurd hjson hne
      subst hb
      have hempty : (parse_with_patterns output a1).findings.isEmpty = true := by
        rw [hpat]; rfl
      unfold parse_output
      dsimp only
      rw [htp]
      dsimp only
      rw [if_pos hempty]
      constructor
      · show ((parse_with_patterns output a1).add_finding _).findings = _
        unfold ReviewAnalysis.add_finding
        rw [hpat]
        rfl
      · show ((parse_with_patterns output a1).add_finding _).raw_output = _
        unfold ReviewAnalysis.add_finding
        show (parse_with_patterns output a1).raw_output = _
        rw [parse_with_patterns_raw output a1]
        exact hraw

/-- Witness for C7 at the empty agent output: both stages yield nothing
and the single fallback finding is produced. -/
theorem parse_output_fallback_witness :
    (parse_output (fun _ => none) "" (ReviewAnalysis.new "claude" "t")).findings =
      [Finding.new Severity.info Category.other "Review completed"
        "Agent completed review - see raw output for details"] ∧
    (parse_output (fun _ => none) "" (ReviewAnalysis.new "claude" "t")).raw_output =
      some "" :=
  parse_output_fallback (fun _ => none) "" (ReviewAnalysis.new "claude" "t")
    rfl rfl

/-- C6.  Parsing the example output yields exactly one High/Security
finding titled X with description Y and the clamped score 4.2; severity
and category matching is insensitive to anything the lowercasing erases
and defaults to Info/Other outside the fixed vocabularies; and the
structured stage reports success only when at least one finding resulted. -/
theorem parse_output_structured_example (jp : String → Option Json)
    (a0 : ReviewAnalysis)
    (h0 : a0.findings = [])
    (hjp : jp c6input = some c6json) :
    (parse_output jp c6input a0).findings =
      [Finding.new Severity.high Category.security "X" "Y"] ∧
    (parse_output jp c6input a0).score = some ((21 : ℚ) / 5) ∧
    (∀ s t, asciiLower s = asciiLower t →
      severityOfString s = severityOfString t ∧
      categoryOfString s = categoryOfString t) ∧
    (∀ s, asciiLower s ∉ sevVocabulary → severityOfString s = Severity.info) ∧
    (∀ s, asciiLower s ∉ catVocabulary → categoryOfString s = Category.other) ∧
    (∀ (jp' : String → Option Json) (out : String) (a : ReviewAnalysis),
      (try_parse_json jp' out a).1 = true →
      (try_parse_json jp' out a).2.findings ≠ []) := by
  have hjp' : jp (dropChars c6input 0) = some c6json := hjp
  set a1 : ReviewAnalysis := a0.set_raw_output c6input with ha1
  have hfi : a1.findings = [] := h0
  have h1 : try_parse_json jp c6input a1 =
      (decide (¬ (((a1.add_finding
            (Finding.new Severity.high Category.security "X" "Y")).set_score
          (21 / 5)).findings.isEmpty = true)),
       (a1.add_finding
          (Finding.new Severity.high Category.security "X" "Y")).set_score
        (21 / 5)) := by
    unfold try_parse_json
    rw [show findChar c6input lbraceChar = some 0 from rfl]
    simp only [hjp']
    rfl
  have h2 : ((a1.add_finding
      (Finding.new Severity.high Category.security "X" "Y")).set_score
        (21 / 5)).findings = [Finding.new Severity.high Category.security "X" "Y"] := by
    show a1.findings ++ [_] = _
    rw [hfi]
    rfl
  have h3 : ((a1.add_finding
      (Finding.new Severity.high Category.security "X" "Y")).set_score
        (21 / 5)).score = some ((21 : ℚ) / 5) := by
    show some (if (21 : ℚ) / 5 < 0 then 0 else if 5 < (21 : ℚ) / 5 then 5
      else (21 : ℚ) / 5) = _
    norm_num
  have hb : decide (¬ (((a1.add_finding
      (Finding.new Severity.high Category.security "X" "Y")).set_score
        (21 / 5)).findings.isEmpty = true)) = true := by
    rw [h2]
    decide
  refine ⟨?_, ?_, ?_, ?_, ?_, try_parse_json_true_nonempty⟩
  · unfold parse_output
    dsimp only
    rw [← ha1, h1, hb]
    exact h2
  · unfold parse_output
    dsimp only
    rw [← ha1, h1, hb]
    exact h3
  · intro s t h
    exact ⟨by unfold severityOfString; rw [h], by unfold categoryOfString; rw [h]⟩
  · intro s hs
    simp only [sevVocabulary, List.mem_cons, List.mem_singleton] at hs
    push_neg at hs
    obtain ⟨n1, n2, n3, n4, n5, n6, n7, n8⟩ := hs
    unfold severityOfString sevFromLower
    simp [n1, n2, n3, n4, n5, n6, n7, n8]
  · intro s hs
    simp only [catVocabulary, List.mem_cons, List.mem_singleton] at hs
    push_neg at hs
    obtain ⟨m1, m2, m3, m4, m5, m6, m7, m8, m9, m10, m11, m12, m13, m14, m15,
      m16, m17⟩ := hs
    unfold categoryOfString catFromLower
    simp [m1, m2, m3, m4, m5, m6, m7, m8, m9, m10, m11, m12, m13, m14, m15,
      m16, m17]

/-- Witness for C6 with a concrete serde stub mapping the example output
to its JSON value. -/
theorem parse_output_structured_example_witness :
    (parse_output (fun s => if s = c6input then some c6json else none) c6input
        (ReviewAnalysis.new "claude" "t")).findings =
      [Finding.new Severity.high Category.security "X" "Y"] ∧
    (parse_output (fun s => if s = c6input then some c6json else none) c6input
        (ReviewAnalysis.new "claude" "t")).score = some ((21 : ℚ) / 5) :=
  ⟨(parse_output_structured_example
      (fun s => if s = c6input then some c6json else none)
      (ReviewAnalysis.new "claude" "t") rfl (by simp)).1,
   (parse_output_structured_example
      (fun s => if s = c6input then some c6json else none)
      (ReviewAnalysis.new "claude" "t") rfl (by simp)).2.1⟩

/-! ## Claim C9: partial agent failure never fails the run -/

theorem run_collect_characterization
    (outcomes : List (String × Except ChabaError ReviewAnalysis))
    (analyses : List ReviewAnalysis) (errors : List (String × ChabaError)) :
    outcomes.foldl
      (fun (acc : List ReviewAnalysis × List (String × ChabaError)) ar =>
        match ar.2 with
        | Except.ok analysis => (acc.1 ++ [analysis], acc.2)
        | Except.error e => (acc.1, acc.2 ++ [(ar.1, e)]))
      (analyses, errors) =
      (analyses ++ successResults outcomes, errors ++ failureLog outcomes) := by
  induction outcomes generalizing analyses errors with
  | nil => simp [successResults, failureLog]
  | cons ar rest ih =>
      cases har : ar.2 with
      | ok analysis =>
          simp only [List.foldl_cons, har]
          rw [ih]
          simp [successResults, failureLog, List.filterMap_cons, har]
      | error e =>
          simp only [List.foldl_cons, har]
          rw [ih]
          simp [successResults, failureLog, List.filterMap_cons, har]

/-- C9.  When at least one per-agent run fails, both the parallel and the
sequential orchestrator still return `Ok` of exactly the successful
analyses (in task order) while the failures end up only in the logged
error list; a partial failure never fails the whole operation. -/
theorem run_agents_partial_failure
    (outcomes : List (String × Except ChabaError ReviewAnalysis))
    (hsome : ∃ ar ∈ outcomes, ∃ e, ar.2 = Except.error e) :
    run_parallel outcomes = (Except.ok (successResults outcomes),
      failureLog outcomes) ∧
    run_sequential outcomes = (Except.ok (successResults outcomes),
      failureLog outcomes) ∧
    failureLog outcomes ≠ [] := by
  refine ⟨?_, ?_, ?_⟩
  · unfold run_parallel
    rw [run_collect_characterization outcomes [] []]
    simp
  · unfold run_sequential
    rw [run_collect_characterization outcomes [] []]
    simp
  · obtain ⟨ar, hmem, e, he⟩ := hsome
    intro hnil
    have : (ar.1, e) ∈ failureLog outcomes := by
      unfold failureLog
      rw [List.mem_filterMap]
      exact ⟨ar, hmem, by rw [he]⟩
    rw [hnil] at this
    simp at this

/-- Witness for C9: three agents of which the second times out; the run
returns the two successful analyses and logs one failure. -/
theorem run_agents_partial_failure_witness :
    run_parallel
        [("claude", Except.ok (ReviewAnalysis.new "claude" "t1")),
         ("codex", Except.error (ChabaError.otherError
            "Agent codex timed out after 300 seconds")),
         ("gemini", Except.ok (ReviewAnalysis.new "gemini" "t2"))] =
      (Except.ok [ReviewAnalysis.new "claude" "t1", ReviewAnalysis.new "gemini" "t2"],
       [("codex", ChabaError.otherError "Agent codex timed out after 300 seconds")]) :=
  (run_agents_partial_failure
      [("claude", Except.ok (ReviewAnalysis.new "claude" "t1")),
       ("codex", Except.error (ChabaError.otherError
          "Agent codex timed out after 300 seconds")),
       ("gemini", Except.ok (ReviewAnalysis.new "gemini" "t2"))]
      ⟨("codex", Except.error (ChabaError.otherError
          "Agent codex timed out after 300 seconds")),
        by simp, ChabaError.otherError "Agent codex timed out after 300 seconds",
        rfl⟩).1

/-- Witness for C5 at a concrete scenario: range 3000-3002, port 3000
recorded in the store, port 3001 failing the bind probe; the allocator
returns 3002. -/
theorem assign_port_spec_witness :
    (3002 : Nat) ∉
        (⟨0, [⟨7, "b", "/w", "t", some 3000, none, false, false, []⟩]⟩ :
          State).reviews.filterMap (fun r => r.port) ∧
    (3000 : Nat) ≤ 3002 ∧ (3002 : Nat) ≤ 3002 ∧
    (fun p => p == 3001) 3002 = false ∧
    (∀ q, 3000 ≤ q → q < 3002 →
      portFree (fun p => p == 3001)
        ((⟨0, [⟨7, "b", "/w", "t", some 3000, none, false, false, []⟩]⟩ :
          State).reviews.filterMap (fun r => r.port)) q = false) :=
  (assign_port_spec (fun p => p == 3001) 3000 3002
      ⟨0, [⟨7, "b", "/w", "t", some 3000, none, false, false, []⟩]⟩).1 3002 rfl

end Chaba
